import Mathlib

/-!
Verification of a small software 3D renderer and character controller
(a castle scene with a chase camera), shallowly embedded over `ℚ`.

Python floats are modelled as exact rationals; the trigonometric
functions `math.sin`, `math.cos`, `math.atan2` and the constant
`math.pi` are abstracted as function/value parameters, since every
property below holds for arbitrary values of them.
-/

namespace SM64

/-- RGB color triple. -/
abbrev Color := ℕ × ℕ × ℕ

/-- `Vector3`: a 3D point `{x, y, z}`. -/
structure Vector3 where
  x : ℚ
  y : ℚ
  z : ℚ
deriving DecidableEq

/-- `Triangle`: three vertices and a flat color. -/
structure Triangle where
  v1 : Vector3
  v2 : Vector3
  v3 : Vector3
  color : Color
deriving DecidableEq

/-! ## Physics constants (module-level constants of the program) -/

def GRAVITY : ℚ := 1.2
def JUMP_FORCE : ℚ := 18.0
def MOVE_SPEED : ℚ := 0.8
def RUN_SPEED : ℚ := 1.4
def FRICTION : ℚ := 0.82
def TURN_SPEED : ℚ := 0.09
def CAM_SMOOTH : ℚ := 0.08

/-! ## Projection pipeline (`project_triangle`)

Each helper below names one intermediate expression of the source:
camera-relative translation, yaw rotation, the near test on raw rotated
depth, the clamp `max(rz, 0.1)`, the perspective divide with `fov = 300`,
and the loose screen-bounds test. -/

/-- Rotated X: `x * cos_yaw - z * sin_yaw` of the camera-relative vertex. -/
def rotX (v : Vector3) (camx camz cosy siny : ℚ) : ℚ :=
  (v.x - camx) * cosy - (v.z - camz) * siny

/-- Rotated Z (depth): `x * sin_yaw + z * cos_yaw` of the camera-relative vertex. -/
def rotZ (v : Vector3) (camx camz cosy siny : ℚ) : ℚ :=
  (v.x - camx) * siny + (v.z - camz) * cosy

/-- Depth clamped to the minimum positive epsilon: `max(rz, 0.1)`. -/
def zclamp (v : Vector3) (camx camz cosy siny : ℚ) : ℚ :=
  max (rotZ v camx camz cosy siny) 0.1

/-- The field-of-view scale constant `fov = 300`. -/
def fov : ℚ := 300

/-- Projected screen X: `(rx * fov) / rz + half_w` (with clamped depth). -/
def screenX (v : Vector3) (camx camz cosy siny halfw : ℚ) : ℚ :=
  rotX v camx camz cosy siny * fov / zclamp v camx camz cosy siny + halfw

/-- Projected screen Y: `-(y * fov) / rz + half_h` where `y` is the
camera-relative (unrotated) Y and the depth is clamped. -/
def screenY (v : Vector3) (camx camy camz cosy siny halfh : ℚ) : ℚ :=
  -((v.y - camy) * fov) / zclamp v camx camz cosy siny + halfh

/-- Near-plane rejection test: all three raw rotated depths below 5
(the three conditions are ANDed). -/
def nearReject (t : Triangle) (camx camz cosy siny : ℚ) : Prop :=
  rotZ t.v1 camx camz cosy siny < 5 ∧
  rotZ t.v2 camx camz cosy siny < 5 ∧
  rotZ t.v3 camx camz cosy siny < 5

instance (t : Triangle) (camx camz cosy siny : ℚ) :
    Decidable (nearReject t camx camz cosy siny) := by
  unfold nearReject; infer_instance

/-- Loose screen-bounds rejection test on the projected points. -/
def boundsReject (t : Triangle) (camx camy camz cosy siny width height halfw halfh : ℚ) :
    Prop :=
  let sx1 := screenX t.v1 camx camz cosy siny halfw
  let sx2 := screenX t.v2 camx camz cosy siny halfw
  let sx3 := screenX t.v3 camx camz cosy siny halfw
  let sy1 := screenY t.v1 camx camy camz cosy siny halfh
  let sy2 := screenY t.v2 camx camy camz cosy siny halfh
  let sy3 := screenY t.v3 camx camy camz cosy siny halfh
  (sx1 < -width ∧ sx2 < -width ∧ sx3 < -width) ∨
  (sx1 > width * 2 ∧ sx2 > width * 2 ∧ sx3 > width * 2) ∨
  (sy1 < -height ∧ sy2 < -height ∧ sy3 < -height) ∨
  (sy1 > height * 2 ∧ sy2 > height * 2 ∧ sy3 > height * 2)

instance (t : Triangle) (camx camy camz cosy siny width height halfw halfh : ℚ) :
    Decidable (boundsReject t camx camy camz cosy siny width height halfw halfh) := by
  unfold boundsReject; infer_instance

/-- `project_triangle`: near test on raw depths, then clamp, perspective
divide, bounds test, and the average depth `(rz1 + rz2 + rz3) * 0.33333`. -/
def projectTriangle (t : Triangle)
    (camx camy camz cosy siny width height halfw halfh : ℚ) :
    Option (ℚ × List (ℚ × ℚ) × Color) :=
  if nearReject t camx camz cosy siny then none
  else if boundsReject t camx camy camz cosy siny width height halfw halfh then none
  else
    some ((zclamp t.v1 camx camz cosy siny + zclamp t.v2 camx camz cosy siny +
             zclamp t.v3 camx camz cosy siny) * 0.33333,
          [(screenX t.v1 camx camz cosy siny halfw, screenY t.v1 camx camy camz cosy siny halfh),
           (screenX t.v2 camx camz cosy siny halfw, screenY t.v2 camx camy camz cosy siny halfh),
           (screenX t.v3 camx camz cosy siny halfw, screenY t.v3 camx camy camz cosy siny halfh)],
          t.color)

/-- A concrete triangle in front of the camera at depth 6 on all vertices. -/
def triC : Triangle :=
  ⟨⟨0, 0, 6⟩, ⟨1, 0, 6⟩, ⟨0, 1, 6⟩, (255, 255, 255)⟩

/-- A concrete triangle exactly on the camera plane (all rotated depths 0). -/
def triN : Triangle :=
  ⟨⟨0, 0, 0⟩, ⟨1, 0, 0⟩, ⟨0, 1, 0⟩, (1, 2, 3)⟩

/-- C1 counterexample: for `triC` (all clamped depths 6, passing both the
near-plane and screen-bounds tests), `project_triangle` returns the depth
`(6+6+6) * 0.33333 = 299997/50000`, which differs from the mean
`(6+6+6)/3 = 6` of the three clamped depths. -/
theorem projection_depth_not_mean_cex :
    (projectTriangle triC 0 0 0 1 0 400 300 200 150).map Prod.fst =
        some (299997 / 50000) ∧
      ¬ ((299997 : ℚ) / 50000 =
          (zclamp triC.v1 0 0 1 0 + zclamp triC.v2 0 0 1 0 +
             zclamp triC.v3 0 0 1 0) / 3) := by
  have hn : ¬ nearReject triC 0 0 1 0 := by
    norm_num [nearReject, rotZ, triC]
  have hb : ¬ boundsReject triC 0 0 0 1 0 400 300 200 150 := by
    norm_num [boundsReject, screenX, screenY, rotX, rotZ, zclamp, fov, triC, max_def]
  constructor
  · unfold projectTriangle
    rw [if_neg hn, if_neg hb]
    norm_num [zclamp, rotZ, triC, max_def]
  · norm_num [zclamp, rotZ, triC, max_def]

/-- C1 (amended): any triangle passing both the near-plane test and the
loose screen-bounds test is projected to exactly three screen points, with
depth equal to the sum of the three clamped camera-relative depths
multiplied by `0.33333` (approximately, but not exactly, their mean). -/
theorem projection_in_bounds (t : Triangle)
    (camx camy camz cosy siny width height halfw halfh : ℚ)
    (hn : ¬ nearReject t camx camz cosy siny)
    (hb : ¬ boundsReject t camx camy camz cosy siny width height halfw halfh) :
    projectTriangle t camx camy camz cosy siny width height halfw halfh =
      some ((zclamp t.v1 camx camz cosy siny + zclamp t.v2 camx camz cosy siny +
               zclamp t.v3 camx camz cosy siny) * 0.33333,
            [(screenX t.v1 camx camz cosy siny halfw,
              screenY t.v1 camx camy camz cosy siny halfh),
             (screenX t.v2 camx camz cosy siny halfw,
              screenY t.v2 camx camy camz cosy siny halfh),
             (screenX t.v3 camx camz cosy siny halfw,
              screenY t.v3 camx camy camz cosy siny halfh)],
            t.color) := by
  unfold projectTriangle
  rw [if_neg hn, if_neg hb]

/-- Witness for the amended C1 theorem at the concrete triangle `triC`. -/
theorem projection_in_bounds_witness :
    projectTriangle triC 0 0 0 1 0 400 300 200 150 =
      some ((zclamp triC.v1 0 0 1 0 + zclamp triC.v2 0 0 1 0 +
               zclamp triC.v3 0 0 1 0) * 0.33333,
            [(screenX triC.v1 0 0 1 0 200, screenY triC.v1 0 0 0 1 0 150),
             (screenX triC.v2 0 0 1 0 200, screenY triC.v2 0 0 0 1 0 150),
             (screenX triC.v3 0 0 1 0 200, screenY triC.v3 0 0 0 1 0 150)],
            triC.color) :=
  projection_in_bounds triC 0 0 0 1 0 400 300 200 150
    (by norm_num [nearReject, rotZ, triC])
    (by norm_num [boundsReject, screenX, screenY, rotX, rotZ, zclamp, fov, triC, max_def])

/-- C2: a triangle whose three rotated depths are all below the near
threshold 5 is discarded (`project_triangle` returns `None`); and since the
three conditions are ANDed, a triangle with at least one rotated depth at
or beyond 5 is not rejected by the near-plane test. -/
theorem near_plane_test :
    (∀ (t : Triangle) (camx camy camz cosy siny width height halfw halfh : ℚ),
        rotZ t.v1 camx camz cosy siny < 5 →
        rotZ t.v2 camx camz cosy siny < 5 →
        rotZ t.v3 camx camz cosy siny < 5 →
        projectTriangle t camx camy camz cosy siny width height halfw halfh = none) ∧
    (∀ (t : Triangle) (camx camz cosy siny : ℚ),
        (5 ≤ rotZ t.v1 camx camz cosy siny ∨ 5 ≤ rotZ t.v2 camx camz cosy siny ∨
            5 ≤ rotZ t.v3 camx camz cosy siny) →
        ¬ nearReject t camx camz cosy siny) := by
  constructor
  · intro t camx camy camz cosy siny width height halfw halfh h1 h2 h3
    unfold projectTriangle
    rw [if_pos ⟨h1, h2, h3⟩]
  · rintro t camx camz cosy siny (h | h | h) ⟨h1, h2, h3⟩ <;> linarith

/-- Witness for C2 at concrete triangles: `triN` (all depths 0) is
discarded, `triC` (all depths 6) is not near-rejected. -/
theorem near_plane_test_witness :
    projectTriangle triN 0 0 0 1 0 400 300 200 150 = none ∧
      ¬ nearReject triC 0 0 1 0 :=
  ⟨near_plane_test.1 triN 0 0 0 1 0 400 300 200 150
      (by norm_num [rotZ, triN]) (by norm_num [rotZ, triN]) (by norm_num [rotZ, triN]),
   near_plane_test.2 triC 0 0 1 0 (Or.inl (by norm_num [rotZ, triC]))⟩

/-! ## Depth shading (`Game.draw`, lines 416-421)

`shade = 1.0 - min(z / 2200.0, 0.65)` and each channel is
`max(0, min(255, int(col * shade)))`, with `int` truncating toward zero. -/

/-- Python `int()` truncation toward zero on a rational. -/
def pyint (q : ℚ) : ℤ := if q < 0 then -⌊-q⌋ else ⌊q⌋

/-- Depth-shading brightness factor: `1.0 - min(z / 2200.0, 0.65)`. -/
def shade (z : ℚ) : ℚ := 1 - min (z / 2200) 0.65

/-- One shaded color channel: `max(0, min(255, int(col * shade)))`. -/
def shadeChannel (c : ℕ) (z : ℚ) : ℤ :=
  max 0 (min 255 (pyint ((c : ℚ) * shade z)))

/-- The darkening term `min(z / 2200, 0.65)` is capped at `0.65`, so the
brightness factor never drops below `0.35`. -/
theorem shade_lower_bound (z : ℚ) : 0.35 ≤ shade z := by
  have h := min_le_right (z / 2200) (0.65 : ℚ)
  unfold shade
  linarith

/-- C4: depth shading is monotonically non-increasing in each channel as
depth increases over non-negative depths, the darkening factor is capped
(brightness never below `0.35`, i.e. darkening at most `0.65`), and every
output channel lies in `0..255`. -/
theorem shading_props :
    (∀ (c : ℕ) (z1 z2 : ℚ), 0 ≤ z1 → z1 ≤ z2 →
        shadeChannel c z2 ≤ shadeChannel c z1) ∧
    (∀ z : ℚ, 0.35 ≤ shade z) ∧
    (∀ (c : ℕ) (z : ℚ), 0 ≤ shadeChannel c z ∧ shadeChannel c z ≤ 255) := by
  refine ⟨?_, shade_lower_bound, ?_⟩
  · intro c z1 z2 _ h12
    have hs : shade z2 ≤ shade z1 := by
      have hd : z1 / 2200 ≤ z2 / 2200 := by linarith
      have := min_le_min hd (le_refl (0.65 : ℚ))
      unfold shade
      linarith
    have hc : (0 : ℚ) ≤ (c : ℚ) := Nat.cast_nonneg c
    have hnn : ∀ z : ℚ, 0 ≤ (c : ℚ) * shade z := fun z =>
      mul_nonneg hc (le_trans (by norm_num) (shade_lower_bound z))
    have hmul : (c : ℚ) * shade z2 ≤ (c : ℚ) * shade z1 :=
      mul_le_mul_of_nonneg_left hs hc
    have hpy : ∀ z : ℚ, pyint ((c : ℚ) * shade z) = ⌊(c : ℚ) * shade z⌋ := by
      intro z
      unfold pyint
      rw [if_neg (not_lt.2 (hnn z))]
    have hfl : pyint ((c : ℚ) * shade z2) ≤ pyint ((c : ℚ) * shade z1) := by
      rw [hpy z1, hpy z2]
      exact Int.floor_le_floor hmul
    unfold shadeChannel
    exact max_le_max le_rfl (min_le_min le_rfl hfl)
  · intro c z
    refine ⟨le_max_left 0 _, max_le (by norm_num) (min_le_left 255 _)⟩

/-- Witness for C4 at concrete inputs (channel 200, depths 0 and 2200). -/
theorem shading_props_witness :
    shadeChannel 200 2200 ≤ shadeChannel 200 0 ∧
      (0.35 : ℚ) ≤ shade 0 ∧
      (0 ≤ shadeChannel 200 2200 ∧ shadeChannel 200 2200 ≤ 255) :=
  ⟨shading_props.1 200 0 2200 (by norm_num) (by norm_num),
   shading_props.2.1 0,
   shading_props.2.2 200 2200⟩

/-! ## Depth sort (`Game.draw`, line 414)

`screen_tris.sort(key=lambda x: x[0], reverse=True)` is the built-in stable sort, descending by the first component.  A stable
descending sort is extensionally unique, so it is modelled by the stable
insertion sort below: an element is placed in front of the first already
sorted element whose depth is less than or equal to its own. -/

/-- A projected screen triangle: `(avg_z, points, color)`. -/
abbrev ScreenTri := ℚ × List (ℚ × ℚ) × Color

/-- Insert one entry into a list sorted by non-increasing depth, after all
entries of greater or equal depth that were already present earlier. -/
def insertByDepth (x : ScreenTri) : List ScreenTri → List ScreenTri
  | [] => [x]
  | y :: ys => if y.1 ≤ x.1 then x :: y :: ys else y :: insertByDepth x ys

/-- Stable sort by non-increasing depth (farthest first), modelling the
reverse sort on the first tuple component. -/
def sortByDepth : List ScreenTri → List ScreenTri
  | [] => []
  | x :: xs => insertByDepth x (sortByDepth xs)

theorem insertByDepth_perm (x : ScreenTri) (l : List ScreenTri) :
    List.Perm (insertByDepth x l) (x :: l) := by
  induction l with
  | nil => exact List.Perm.refl _
  | cons y ys ih =>
    unfold insertByDepth
    split
    · exact List.Perm.refl _
    · exact List.Perm.trans (List.Perm.cons y ih) (List.Perm.swap x y ys)

theorem insertByDepth_pairwise (x : ScreenTri) (l : List ScreenTri)
    (h : l.Pairwise (fun a b => b.1 ≤ a.1)) :
    (insertByDepth x l).Pairwise (fun a b => b.1 ≤ a.1) := by
  induction l with
  | nil => simp [insertByDepth]
  | cons y ys ih =>
    rcases List.pairwise_cons.1 h with ⟨hy, hys⟩
    unfold insertByDepth
    split
    · rename_i hyx
      refine List.pairwise_cons.2 ⟨?_, h⟩
      intro z hz
      rcases List.mem_cons.1 hz with rfl | hz
      · exact hyx
      · exact le_trans (hy z hz) hyx
    · rename_i hyx
      push_neg at hyx
      refine List.pairwise_cons.2 ⟨?_, ih hys⟩
      intro z hz
      have hz' : z ∈ x :: ys := (insertByDepth_perm x ys).mem_iff.1 hz
      rcases List.mem_cons.1 hz' with rfl | hz'
      · exact le_of_lt hyx
      · exact hy z hz'

theorem insertByDepth_filter_eq (d : ℚ) (x : ScreenTri) (l : List ScreenTri)
    (hx : x.1 = d) :
    (insertByDepth x l).filter (fun t => decide (t.1 = d)) =
      x :: l.filter (fun t => decide (t.1 = d)) := by
  induction l with
  | nil => simp [insertByDepth, hx]
  | cons y ys ih =>
    unfold insertByDepth
    split
    · simp [List.filter_cons, hx]
    · rename_i hyx
      push_neg at hyx
      have hyne : y.1 ≠ d := hx ▸ ne_of_gt hyx
      simp [List.filter_cons, hyne, ih]

theorem insertByDepth_filter_ne (d : ℚ) (x : ScreenTri) (l : List ScreenTri)
    (hx : x.1 ≠ d) :
    (insertByDepth x l).filter (fun t => decide (t.1 = d)) =
      l.filter (fun t => decide (t.1 = d)) := by
  induction l with
  | nil => simp [insertByDepth, hx]
  | cons y ys ih =>
    unfold insertByDepth
    split
    · simp [List.filter_cons, hx]
    · simp [List.filter_cons, ih]

theorem sortByDepth_perm (l : List ScreenTri) : List.Perm (sortByDepth l) l := by
  induction l with
  | nil => exact List.Perm.refl _
  | cons x xs ih =>
    exact List.Perm.trans (insertByDepth_perm x (sortByDepth xs)) (List.Perm.cons x ih)

theorem sortByDepth_pairwise (l : List ScreenTri) :
    (sortByDepth l).Pairwise (fun a b => b.1 ≤ a.1) := by
  induction l with
  | nil => simp [sortByDepth]
  | cons x xs ih => exact insertByDepth_pairwise x (sortByDepth xs) ih

theorem sortByDepth_filter (l : List ScreenTri) (d : ℚ) :
    (sortByDepth l).filter (fun t => decide (t.1 = d)) =
      l.filter (fun t => decide (t.1 = d)) := by
  induction l with
  | nil => rfl
  | cons x xs ih =>
    by_cases hx : x.1 = d
    · rw [sortByDepth, insertByDepth_filter_eq d x _ hx, ih,
        List.filter_cons_of_pos (by simp [hx])]
    · rw [sortByDepth, insertByDepth_filter_ne d x _ hx, ih,
        List.filter_cons_of_neg (by simp [hx])]

/-- C3: the depth sort is non-increasing in depth (farthest first), a
permutation of its input, and stable: entries of equal depth keep their
relative input order (for every depth `d`, filtering the output at depth
`d` gives exactly the input entries of depth `d` in input order). -/
theorem depth_sort_spec (l : List ScreenTri) :
    (sortByDepth l).Pairwise (fun a b => b.1 ≤ a.1) ∧
      List.Perm (sortByDepth l) l ∧
      ∀ d : ℚ, (sortByDepth l).filter (fun t => decide (t.1 = d)) =
        l.filter (fun t => decide (t.1 = d)) :=
  ⟨sortByDepth_pairwise l, sortByDepth_perm l, sortByDepth_filter l⟩

/-! ## Character controller (`Player.update`)

The input snapshot is the six boolean queries actually read by the code
(each key pair `UP/w`, `DOWN/s`, `LEFT/a`, `RIGHT/d` is only ever read
OR-ed together, so each pair is one field).  `math.sin`/`math.cos` are
abstract function parameters. -/

/-- Per-tick input snapshot. -/
structure Keys where
  up : Bool
  down : Bool
  left : Bool
  right : Bool
  shift : Bool
  space : Bool
deriving DecidableEq

/-- Character state: position, velocity, heading, grounded flag and
walk-cycle phase. -/
structure PlayerState where
  pos : Vector3
  vel : Vector3
  yaw : ℚ
  grounded : Bool
  walk_cycle : ℚ
deriving DecidableEq

/-- Movement speed tier: `RUN_SPEED if shift else MOVE_SPEED`. -/
def speedOf (k : Keys) : ℚ := if k.shift then RUN_SPEED else MOVE_SPEED

/-- Forward input: starts at 0, set to 1 by up, then to -1 by down
(down overwrites up). -/
def forwardOf (k : Keys) : ℚ := if k.down then -1 else if k.up then 1 else 0

/-- Turning input: starts at 0, set to 1 by left, then to -1 by right
(right overwrites left). -/
def turningOf (k : Keys) : ℚ := if k.right then -1 else if k.left then 1 else 0

/-- Vertical velocity after the jump check and the gravity decrement:
`JUMP_FORCE` replaces `vel.y` when space is pressed while grounded, then
`GRAVITY` is subtracted.  This is the value integrated into `pos.y`. -/
def velYpre (k : Keys) (p : PlayerState) : ℚ :=
  (if k.space ∧ p.grounded then JUMP_FORCE else p.vel.y) - GRAVITY

/-- Grounded flag after the jump check (cleared by a jump). -/
def groundedPre (k : Keys) (p : PlayerState) : Bool :=
  if k.space ∧ p.grounded then false else p.grounded

/-- `Player.update`: one tick of the character controller.  Turning, then
heading-relative impulse and walk-cycle animation, friction, jump check,
gravity, integration, and the floor clamp at `pos.y < 0`. -/
def PlayerUpdate (sinf cosf : ℚ → ℚ) (k : Keys) (p : PlayerState) : PlayerState :=
  let yaw := p.yaw + turningOf k * TURN_SPEED
  let vx := (if forwardOf k ≠ 0
             then p.vel.x + sinf yaw * speedOf k * forwardOf k
             else p.vel.x) * FRICTION
  let vz := (if forwardOf k ≠ 0
             then p.vel.z + cosf yaw * speedOf k * forwardOf k
             else p.vel.z) * FRICTION
  let walk := if forwardOf k ≠ 0
              then (if p.grounded
                    then p.walk_cycle + 0.3 * (if speedOf k = RUN_SPEED then 1.5 else 1)
                    else p.walk_cycle)
              else 0
  let vy := velYpre k p
  let py := p.pos.y + vy
  if py < 0 then
    ⟨⟨p.pos.x + vx, 0, p.pos.z + vz⟩, ⟨vx, 0, vz⟩, yaw, true, walk⟩
  else
    ⟨⟨p.pos.x + vx, py, p.pos.z + vz⟩, ⟨vx, vy, vz⟩, yaw, groundedPre k p, walk⟩

/-- Shared landing lemma: whenever the integration step of a tick would carry
`pos.y` below 0, the update clamps `pos.y` to 0, zeroes `vel.y` and sets
`grounded`. -/
theorem landing_clamp (sinf cosf : ℚ → ℚ) (k : Keys) (p : PlayerState)
    (hc : p.pos.y + velYpre k p < 0) :
    (PlayerUpdate sinf cosf k p).pos.y = 0 ∧
      (PlayerUpdate sinf cosf k p).vel.y = 0 ∧
      (PlayerUpdate sinf cosf k p).grounded = true := by
  unfold PlayerUpdate
  dsimp only
  rw [if_pos hc]
  exact ⟨rfl, rfl, rfl⟩

/-- C10: floor invariant.  Starting from `pos.y ≥ 0`, one update ends with
`pos.y ≥ 0`; and whenever the integration would carry `pos.y` below 0, the
update instead sets `pos.y = 0`, `vel.y = 0` and `grounded = true`. -/
theorem floor_invariant (sinf cosf : ℚ → ℚ) (k : Keys) (p : PlayerState)
    (h : 0 ≤ p.pos.y) :
    0 ≤ (PlayerUpdate sinf cosf k p).pos.y ∧
      (p.pos.y + velYpre k p < 0 →
        (PlayerUpdate sinf cosf k p).pos.y = 0 ∧
          (PlayerUpdate sinf cosf k p).vel.y = 0 ∧
          (PlayerUpdate sinf cosf k p).grounded = true) := by
  refine ⟨?_, landing_clamp sinf cosf k p⟩
  unfold PlayerUpdate
  dsimp only
  split
  · exact le_refl 0
  · rename_i hge
    push_neg at hge
    exact hge

/-- C5: jumping from a grounded state with the jump input sets the
vertical velocity to the jump impulse (so after the gravity decrement of
the same tick
it equals `JUMP_FORCE - GRAVITY`) and clears `grounded`; and on
any tick whose integration carries `pos.y` below the floor, the update
clamps `pos.y` to 0, zeroes `vel.y` and sets `grounded = true`. -/
theorem jump_and_landing :
    (∀ (sinf cosf : ℚ → ℚ) (k : Keys) (p : PlayerState),
        p.grounded = true → k.space = true → 0 ≤ p.pos.y →
        (PlayerUpdate sinf cosf k p).vel.y = JUMP_FORCE - GRAVITY ∧
          (PlayerUpdate sinf cosf k p).grounded = false) ∧
    (∀ (sinf cosf : ℚ → ℚ) (k : Keys) (p : PlayerState),
        p.pos.y + velYpre k p < 0 →
        (PlayerUpdate sinf cosf k p).pos.y = 0 ∧
          (PlayerUpdate sinf cosf k p).vel.y = 0 ∧
          (PlayerUpdate sinf cosf k p).grounded = true) := by
  refine ⟨?_, landing_clamp⟩
  intro sinf cosf k p hg hs hy
  have hvy : velYpre k p = JUMP_FORCE - GRAVITY := by
    unfold velYpre
    rw [if_pos ⟨hs, hg⟩]
  have hpy : ¬ (p.pos.y + velYpre k p < 0) := by
    rw [hvy]
    push_neg
    have : (0 : ℚ) ≤ JUMP_FORCE - GRAVITY := by norm_num [JUMP_FORCE, GRAVITY]
    linarith
  unfold PlayerUpdate
  dsimp only
  rw [if_neg hpy]
  refine ⟨hvy, ?_⟩
  simp [groundedPre, hs, hg]

/-- C9: the walk-cycle phase after one update: it advances by the
tier-scaled increment exactly when there is forward/backward input while
grounded, stays unchanged when airborne with input, and resets to exactly
zero on any tick with no forward input. -/
theorem walk_cycle_spec (sinf cosf : ℚ → ℚ) (k : Keys) (p : PlayerState) :
    (PlayerUpdate sinf cosf k p).walk_cycle =
      if forwardOf k = 0 then 0
      else if p.grounded then
        p.walk_cycle + 0.3 * (if k.shift then 1.5 else 1)
      else p.walk_cycle := by
  unfold PlayerUpdate
  dsimp only
  split
  all_goals
    by_cases hf : forwardOf k = 0 <;> by_cases hg : p.grounded <;>
      by_cases hs : k.shift <;>
      norm_num [hf, hg, hs, speedOf, RUN_SPEED, MOVE_SPEED]

/-! Concrete states for witnesses. -/

/-- The input snapshot with no key pressed. -/
def noKeys : Keys := ⟨false, false, false, false, false, false⟩

/-- The input snapshot with only the jump key pressed. -/
def jumpKeys : Keys := ⟨false, false, false, false, false, true⟩

/-- A stand-in for the abstract trigonometric parameters. -/
def zeroFun : ℚ → ℚ := fun _ => 0

/-- A falling airborne state above the floor. -/
def pAir : PlayerState := ⟨⟨0, 5, 0⟩, ⟨0, -100, 0⟩, 0, false, 0⟩

/-- A grounded state with horizontal velocity `(3, 0, 4)`. -/
def pRun : PlayerState := ⟨⟨0, 0, 0⟩, ⟨3, 0, 4⟩, 0, true, 0⟩

/-- Witness for C10 at the falling state `pAir`. -/
theorem floor_invariant_witness :
    0 ≤ (PlayerUpdate zeroFun zeroFun noKeys pAir).pos.y ∧
      (pAir.pos.y + velYpre noKeys pAir < 0 →
        (PlayerUpdate zeroFun zeroFun noKeys pAir).pos.y = 0 ∧
          (PlayerUpdate zeroFun zeroFun noKeys pAir).vel.y = 0 ∧
          (PlayerUpdate zeroFun zeroFun noKeys pAir).grounded = true) :=
  floor_invariant zeroFun zeroFun noKeys pAir (by norm_num [pAir])

/-- Witness for C5 at the grounded state `pRun` with the jump key, and at
the falling state `pAir`. -/
theorem jump_and_landing_witness :
    ((PlayerUpdate zeroFun zeroFun jumpKeys pRun).vel.y = JUMP_FORCE - GRAVITY ∧
        (PlayerUpdate zeroFun zeroFun jumpKeys pRun).grounded = false) ∧
      ((PlayerUpdate zeroFun zeroFun noKeys pAir).pos.y = 0 ∧
        (PlayerUpdate zeroFun zeroFun noKeys pAir).vel.y = 0 ∧
        (PlayerUpdate zeroFun zeroFun noKeys pAir).grounded = true) :=
  ⟨jump_and_landing.1 zeroFun zeroFun jumpKeys pRun (by norm_num [pRun])
      (by norm_num [jumpKeys]) (by norm_num [pRun]),
   jump_and_landing.2 zeroFun zeroFun noKeys pAir
      (by norm_num [pAir, velYpre, noKeys, GRAVITY])⟩

/-- A no-input tick multiplies each horizontal velocity component by the
friction constant and nothing else. -/
theorem update_noInput_vel (sinf cosf : ℚ → ℚ) (p : PlayerState) :
    (PlayerUpdate sinf cosf noKeys p).vel.x = p.vel.x * FRICTION ∧
      (PlayerUpdate sinf cosf noKeys p).vel.z = p.vel.z * FRICTION := by
  have hf : forwardOf noKeys = 0 := by norm_num [forwardOf, noKeys]
  unfold PlayerUpdate
  dsimp only
  split <;> simp [hf]

/-- `n` consecutive ticks with no input. -/
def stepN (sinf cosf : ℚ → ℚ) : ℕ → PlayerState → PlayerState
  | 0, p => p
  | n + 1, p => PlayerUpdate sinf cosf noKeys (stepN sinf cosf n p)

theorem stepN_vel (sinf cosf : ℚ → ℚ) (p : PlayerState) (n : ℕ) :
    (stepN sinf cosf n p).vel.x = p.vel.x * FRICTION ^ n ∧
      (stepN sinf cosf n p).vel.z = p.vel.z * FRICTION ^ n := by
  induction n with
  | zero => simp [stepN]
  | succ n ih =>
    simp only [stepN]
    rw [(update_noInput_vel sinf cosf (stepN sinf cosf n p)).1,
      (update_noInput_vel sinf cosf (stepN sinf cosf n p)).2, ih.1, ih.2]
    constructor <;> ring

/-- C6: friction law.  With zero input over `n` ticks each horizontal
velocity component is multiplied by `FRICTION` per tick, so after `n`
ticks it equals the initial component times `FRICTION ^ n`, the squared
horizontal speed decays by `FRICTION ^ 2` per tick, and for every
`ε > 0` there is an `N` after which the squared speed stays below `ε ^ 2`
(i.e. the speed stays below `ε`). -/
theorem friction_law (sinf cosf : ℚ → ℚ) (p : PlayerState) (n : ℕ) (ε : ℚ)
    (hε : 0 < ε) :
    (stepN sinf cosf n p).vel.x = p.vel.x * FRICTION ^ n ∧
      (stepN sinf cosf n p).vel.z = p.vel.z * FRICTION ^ n ∧
      ((stepN sinf cosf n p).vel.x ^ 2 + (stepN sinf cosf n p).vel.z ^ 2 =
        (p.vel.x ^ 2 + p.vel.z ^ 2) * (FRICTION ^ 2) ^ n) ∧
      ∃ N : ℕ, ∀ m : ℕ, N ≤ m →
        (stepN sinf cosf m p).vel.x ^ 2 + (stepN sinf cosf m p).vel.z ^ 2 <
          ε ^ 2 := by
  have hsq : ∀ m : ℕ,
      (stepN sinf cosf m p).vel.x ^ 2 + (stepN sinf cosf m p).vel.z ^ 2 =
        (p.vel.x ^ 2 + p.vel.z ^ 2) * (FRICTION ^ 2) ^ m := by
    intro m
    rw [(stepN_vel sinf cosf p m).1, (stepN_vel sinf cosf p m).2]
    ring
  refine ⟨(stepN_vel sinf cosf p n).1, (stepN_vel sinf cosf p n).2, hsq n, ?_⟩
  have hs0 : (0 : ℚ) ≤ p.vel.x ^ 2 + p.vel.z ^ 2 := by positivity
  have hF : (FRICTION ^ 2 : ℚ) < 1 := by norm_num [FRICTION]
  have hF0 : (0 : ℚ) ≤ FRICTION ^ 2 := by positivity
  have htgt : 0 < ε ^ 2 / (p.vel.x ^ 2 + p.vel.z ^ 2 + 1) := by positivity
  obtain ⟨N, hN⟩ := exists_pow_lt_of_lt_one htgt hF
  refine ⟨N, fun m hm => ?_⟩
  rw [hsq m]
  have h1 : (FRICTION ^ 2 : ℚ) ^ m ≤ (FRICTION ^ 2) ^ N :=
    pow_le_pow_of_le_one hF0 (le_of_lt hF) hm
  have h2 : (p.vel.x ^ 2 + p.vel.z ^ 2) * (FRICTION ^ 2) ^ m ≤
      (p.vel.x ^ 2 + p.vel.z ^ 2) * (FRICTION ^ 2) ^ N :=
    mul_le_mul_of_nonneg_left h1 hs0
  have h3 : (p.vel.x ^ 2 + p.vel.z ^ 2) * (FRICTION ^ 2) ^ N ≤
      (p.vel.x ^ 2 + p.vel.z ^ 2) *
        (ε ^ 2 / (p.vel.x ^ 2 + p.vel.z ^ 2 + 1)) :=
    mul_le_mul_of_nonneg_left (le_of_lt hN) hs0
  have hs1 : (0 : ℚ) < p.vel.x ^ 2 + p.vel.z ^ 2 + 1 := by positivity
  have hε2 : (0 : ℚ) < ε ^ 2 := by positivity
  have h4 : (p.vel.x ^ 2 + p.vel.z ^ 2) *
      (ε ^ 2 / (p.vel.x ^ 2 + p.vel.z ^ 2 + 1)) < ε ^ 2 := by
    rw [mul_div_assoc', div_lt_iff₀ hs1]
    nlinarith
  linarith

/-- Witness for C6 at the concrete state `pRun`, one tick, `ε = 1`. -/
theorem friction_law_witness :
    (stepN zeroFun zeroFun 1 pRun).vel.x = pRun.vel.x * FRICTION ^ 1 ∧
      (stepN zeroFun zeroFun 1 pRun).vel.z = pRun.vel.z * FRICTION ^ 1 ∧
      ((stepN zeroFun zeroFun 1 pRun).vel.x ^ 2 +
          (stepN zeroFun zeroFun 1 pRun).vel.z ^ 2 =
        (pRun.vel.x ^ 2 + pRun.vel.z ^ 2) * (FRICTION ^ 2) ^ 1) ∧
      ∃ N : ℕ, ∀ m : ℕ, N ≤ m →
        (stepN zeroFun zeroFun m pRun).vel.x ^ 2 +
            (stepN zeroFun zeroFun m pRun).vel.z ^ 2 <
          1 ^ 2 :=
  friction_law zeroFun zeroFun pRun 1 1 (by norm_num)

/-! ## Chase camera (`Game.update_camera`)

The target is computed from the (already updated) character position and
heading, each axis is exponentially smoothed toward it with factor
`CAM_SMOOTH`, then the yaw is recomputed as `atan2(dx, dz)` of the vector
from the (new) camera position to the character.  `math.atan2` is an
abstract function parameter. -/

/-- Camera state: position, yaw, follow distance, pitch height offset. -/
structure CamState where
  pos : Vector3
  yaw : ℚ
  dist : ℚ
  pitchHeight : ℚ
deriving DecidableEq

/-- Target X: `player.x - sin(player.yaw) * cam_dist`. -/
def camTargetX (sinf : ℚ → ℚ) (p : PlayerState) (c : CamState) : ℚ :=
  p.pos.x - sinf p.yaw * c.dist

/-- Target Y: `player.y + cam_pitch_height`. -/
def camTargetY (p : PlayerState) (c : CamState) : ℚ :=
  p.pos.y + c.pitchHeight

/-- Target Z: `player.z - cos(player.yaw) * cam_dist`. -/
def camTargetZ (cosf : ℚ → ℚ) (p : PlayerState) (c : CamState) : ℚ :=
  p.pos.z - cosf p.yaw * c.dist

/-- `Game.update_camera`: per-axis exponential smoothing toward the target
followed by the yaw recomputation `atan2(dx, dz)`. -/
def updateCamera (sinf cosf : ℚ → ℚ) (atan2f : ℚ → ℚ → ℚ)
    (p : PlayerState) (c : CamState) : CamState :=
  let nx := c.pos.x + (camTargetX sinf p c - c.pos.x) * CAM_SMOOTH
  let ny := c.pos.y + (camTargetY p c - c.pos.y) * CAM_SMOOTH
  let nz := c.pos.z + (camTargetZ cosf p c - c.pos.z) * CAM_SMOOTH
  ⟨⟨nx, ny, nz⟩, atan2f (p.pos.x - nx) (p.pos.z - nz), c.dist, c.pitchHeight⟩

/-- C7: with the target freshly computed from the updated character state,
one camera update shrinks the (signed and absolute) per-axis offset from
the target by the factor `1 - CAM_SMOOTH`, and the new yaw is exactly
`atan2` of the vector from the new camera position to the character,
independent of the position smoothing. -/
theorem camera_smoothing (sinf cosf : ℚ → ℚ) (atan2f : ℚ → ℚ → ℚ)
    (k : Keys) (p : PlayerState) (c : CamState) :
    (camTargetX sinf (PlayerUpdate sinf cosf k p) c -
          (updateCamera sinf cosf atan2f (PlayerUpdate sinf cosf k p) c).pos.x =
        (camTargetX sinf (PlayerUpdate sinf cosf k p) c - c.pos.x) *
          (1 - CAM_SMOOTH) ∧
      camTargetY (PlayerUpdate sinf cosf k p) c -
          (updateCamera sinf cosf atan2f (PlayerUpdate sinf cosf k p) c).pos.y =
        (camTargetY (PlayerUpdate sinf cosf k p) c - c.pos.y) *
          (1 - CAM_SMOOTH) ∧
      camTargetZ cosf (PlayerUpdate sinf cosf k p) c -
          (updateCamera sinf cosf atan2f (PlayerUpdate sinf cosf k p) c).pos.z =
        (camTargetZ cosf (PlayerUpdate sinf cosf k p) c - c.pos.z) *
          (1 - CAM_SMOOTH)) ∧
    (|camTargetX sinf (PlayerUpdate sinf cosf k p) c -
          (updateCamera sinf cosf atan2f (PlayerUpdate sinf cosf k p) c).pos.x| =
        |camTargetX sinf (PlayerUpdate sinf cosf k p) c - c.pos.x| *
          (1 - CAM_SMOOTH) ∧
      |camTargetY (PlayerUpdate sinf cosf k p) c -
          (updateCamera sinf cosf atan2f (PlayerUpdate sinf cosf k p) c).pos.y| =
        |camTargetY (PlayerUpdate sinf cosf k p) c - c.pos.y| *
          (1 - CAM_SMOOTH) ∧
      |camTargetZ cosf (PlayerUpdate sinf cosf k p) c -
          (updateCamera sinf cosf atan2f (PlayerUpdate sinf cosf k p) c).pos.z| =
        |camTargetZ cosf (PlayerUpdate sinf cosf k p) c - c.pos.z| *
          (1 - CAM_SMOOTH)) ∧
    (updateCamera sinf cosf atan2f (PlayerUpdate sinf cosf k p) c).yaw =
      atan2f
        ((PlayerUpdate sinf cosf k p).pos.x -
          (updateCamera sinf cosf atan2f (PlayerUpdate sinf cosf k p) c).pos.x)
        ((PlayerUpdate sinf cosf k p).pos.z -
          (updateCamera sinf cosf atan2f (PlayerUpdate sinf cosf k p) c).pos.z) := by
  have hx : camTargetX sinf (PlayerUpdate sinf cosf k p) c -
      (updateCamera sinf cosf atan2f (PlayerUpdate sinf cosf k p) c).pos.x =
      (camTargetX sinf (PlayerUpdate sinf cosf k p) c - c.pos.x) *
        (1 - CAM_SMOOTH) := by
    unfold updateCamera
    dsimp only
    ring
  have hy : camTargetY (PlayerUpdate sinf cosf k p) c -
      (updateCamera sinf cosf atan2f (PlayerUpdate sinf cosf k p) c).pos.y =
      (camTargetY (PlayerUpdate sinf cosf k p) c - c.pos.y) *
        (1 - CAM_SMOOTH) := by
    unfold updateCamera
    dsimp only
    ring
  have hz : camTargetZ cosf (PlayerUpdate sinf cosf k p) c -
      (updateCamera sinf cosf atan2f (PlayerUpdate sinf cosf k p) c).pos.z =
      (camTargetZ cosf (PlayerUpdate sinf cosf k p) c - c.pos.z) *
        (1 - CAM_SMOOTH) := by
    unfold updateCamera
    dsimp only
    ring
  have hk : (0 : ℚ) ≤ 1 - CAM_SMOOTH := by norm_num [CAM_SMOOTH]
  refine ⟨⟨hx, hy, hz⟩, ⟨?_, ?_, ?_⟩, rfl⟩
  · rw [hx, abs_mul, abs_of_nonneg hk]
  · rw [hy, abs_mul, abs_of_nonneg hk]
  · rw [hz, abs_mul, abs_of_nonneg hk]

/-! ## Procedural mesh builders and scene assembly (`Level.build`)

The Python builders append into a shared list; here each builder returns
the triangles it would append, and the assembly routine concatenates them
in the same call order, so the resulting list is element-for-element the
list the program builds.  `math.cos`, `math.sin` and `math.pi` are
abstract parameters (`cosf`, `sinf`, `piq`). -/

def WHITE : Color := (255, 255, 255)
def YELLOW : Color := (255, 215, 0)
def GOLD : Color := (218, 165, 32)
def CASTLE_STONE : Color := (220, 215, 205)
def CASTLE_DARK : Color := (160, 155, 145)
def CASTLE_ROOF : Color := (190, 50, 50)
def TOWER_COLOR : Color := (230, 220, 210)
def GRASS_GREEN : Color := (60, 180, 60)
def DARK_GREEN : Color := (30, 100, 30)
def WATER_BLUE : Color := (60, 120, 240)
def COBBLE : Color := (150, 145, 135)
def WOOD_BROWN : Color := (120, 80, 40)
def WINDOW_BLUE : Color := (100, 180, 255)
def FLAG_RED : Color := (220, 30, 40)

/-- `add_box`: the 10 triangles (top, front, back, left, right faces; no
bottom) of a box with center-bottom anchor `(cx, yb, cz)`. -/
def addBox (cx yb cz w h d : ℚ) (topCol frontCol sideCol : Color) :
    List Triangle :=
  let hw := w * 0.5
  let hd := d * 0.5
  let x0 := cx - hw
  let x1 := cx + hw
  let y0 := yb
  let y1 := yb + h
  let z0 := cz - hd
  let z1 := cz + hd
  let vblf : Vector3 := ⟨x0, y0, z0⟩
  let vbrf : Vector3 := ⟨x1, y0, z0⟩
  let vtlf : Vector3 := ⟨x0, y1, z0⟩
  let vtrf : Vector3 := ⟨x1, y1, z0⟩
  let vblb : Vector3 := ⟨x0, y0, z1⟩
  let vbrb : Vector3 := ⟨x1, y0, z1⟩
  let vtlb : Vector3 := ⟨x0, y1, z1⟩
  let vtrb : Vector3 := ⟨x1, y1, z1⟩
  [⟨vtlf, vtrf, vtrb, topCol⟩, ⟨vtlf, vtrb, vtlb, topCol⟩,
   ⟨vblf, vbrf, vtrf, frontCol⟩, ⟨vblf, vtrf, vtlf, frontCol⟩,
   ⟨vbrb, vblb, vtlb, frontCol⟩, ⟨vbrb, vtlb, vtrb, frontCol⟩,
   ⟨vblb, vblf, vtlf, sideCol⟩, ⟨vblb, vtlf, vtlb, sideCol⟩,
   ⟨vbrf, vbrb, vtrb, sideCol⟩, ⟨vbrf, vtrb, vtrf, sideCol⟩]

/-- `add_cylinder`: a top fan and side-wall quads from `N+1` precomputed
`(cos, sin) * radius` samples; no bottom cap. -/
def addCylinder (cosf sinf : ℚ → ℚ) (piq cx yb cz radius height : ℚ)
    (segments : ℕ) (topCol sideCol : Color) : List Triangle :=
  let step := 2 * piq / (segments : ℚ)
  let topY := yb + height
  let cache : ℕ → ℚ × ℚ := fun i =>
    (cosf ((i : ℚ) * step) * radius, sinf ((i : ℚ) * step) * radius)
  let centerTop : Vector3 := ⟨cx, topY, cz⟩
  (List.range segments).flatMap fun i =>
    let x0 := (cache i).1
    let z0 := (cache i).2
    let x1 := (cache (i + 1)).1
    let z1 := (cache (i + 1)).2
    let t0 : Vector3 := ⟨cx + x0, topY, cz + z0⟩
    let t1 : Vector3 := ⟨cx + x1, topY, cz + z1⟩
    let b0 : Vector3 := ⟨cx + x0, yb, cz + z0⟩
    let b1 : Vector3 := ⟨cx + x1, yb, cz + z1⟩
    [⟨centerTop, t1, t0, topCol⟩, ⟨t0, t1, b1, sideCol⟩, ⟨t0, b1, b0, sideCol⟩]

/-- `add_cone`: `N` side triangles fanning from a base ring to the apex;
no base cap. -/
def addCone (cosf sinf : ℚ → ℚ) (piq cx yb cz radius height : ℚ)
    (segments : ℕ) (col : Color) : List Triangle :=
  let step := 2 * piq / (segments : ℚ)
  let apex : Vector3 := ⟨cx, yb + height, cz⟩
  let cache : ℕ → ℚ × ℚ := fun i =>
    (cosf ((i : ℚ) * step) * radius, sinf ((i : ℚ) * step) * radius)
  (List.range segments).flatMap fun i =>
    let x0 := (cache i).1
    let z0 := (cache i).2
    let x1 := (cache (i + 1)).1
    let z1 := (cache (i + 1)).2
    let b0 : Vector3 := ⟨cx + x0, yb, cz + z0⟩
    let b1 : Vector3 := ⟨cx + x1, yb, cz + z1⟩
    [⟨b0, b1, apex, col⟩]

/-- `add_flag`: box pole plus a single pennant triangle. -/
def addFlag (cx yb cz : ℚ) : List Triangle :=
  addBox cx yb cz 3 35 3 WHITE WHITE WHITE ++
    [⟨⟨cx, yb + 28, cz + 2⟩, ⟨cx + 22, yb + 24, cz + 2⟩,
      ⟨cx, yb + 20, cz + 2⟩, FLAG_RED⟩]

/-- `add_battlements`: a row of evenly spaced merlon boxes along the X or
Z axis. -/
def addBattlements (cx yb cz «length» : ℚ) (isZaxis : Bool) (col : Color)
    (count : ℕ) : List Triangle :=
  let merlonW := «length» / ((count : ℚ) * 2 - 1)
  let h : ℚ := 22
  let d : ℚ := 16
  let startOff := -«length» / 2 + merlonW / 2
  (List.range count).flatMap fun i =>
    let pos := startOff + (i : ℚ) * merlonW * 2
    if isZaxis then
      addBox cx yb (cz + pos) d h merlonW col CASTLE_DARK CASTLE_DARK
    else
      addBox (cx + pos) yb cz merlonW h d col CASTLE_DARK CASTLE_DARK

/-- `add_peach_tower`: cylinder body, cone roof, flag, and a ring of six
window boxes. -/
def addPeachTower (cosf sinf : ℚ → ℚ)
    (piq cx yb cz radius height roofHeight : ℚ)
    (wallCol roofCol : Color) : List Triangle :=
  let segs : ℕ := 8
  addCylinder cosf sinf piq cx yb cz radius height segs wallCol wallCol ++
    addCone cosf sinf piq cx (yb + height) cz (radius * 1.25) roofHeight segs
      roofCol ++
    addFlag cx (yb + height + roofHeight + 5) cz ++
    (List.range 6).flatMap fun i =>
      let ang := (i : ℚ) * (piq / 3)
      let wx := cx + cosf ang * radius * 0.85
      let wz := cz + sinf ang * radius * 0.85
      addBox wx (yb + height * 0.4 + (i : ℚ) * 18) wz 14 18 14
        WINDOW_BLUE WINDOW_BLUE WINDOW_BLUE

/-- `Level.build`: the fixed deterministic scene-construction sequence
with the literal coordinates of the program. -/
def levelBuild (cosf sinf : ℚ → ℚ) (piq : ℚ) : List Triangle :=
  -- Environment
  addBox 0 (-12) 0 1800 12 1800 GRASS_GREEN DARK_GREEN DARK_GREEN ++
    addBox 0 (-11) 120 180 3 920 COBBLE COBBLE COBBLE ++
    addCylinder cosf sinf piq 0 (-11) 80 280 3 14 COBBLE COBBLE ++
    -- Moat
    addBox 0 (-9) (-140) 820 9 180 WATER_BLUE WATER_BLUE WATER_BLUE ++
    addBox (-410) (-9) 180 40 9 720 WATER_BLUE WATER_BLUE WATER_BLUE ++
    addBox 410 (-9) 180 40 9 720 WATER_BLUE WATER_BLUE WATER_BLUE ++
    -- Bridge
    addBox 0 (-8) (-80) 110 6 180 WOOD_BROWN WOOD_BROWN WOOD_BROWN ++
    addBox (-48) (-3) (-80) 8 12 160 WOOD_BROWN WOOD_BROWN WOOD_BROWN ++
    addBox 48 (-3) (-80) 8 12 160 WOOD_BROWN WOOD_BROWN WOOD_BROWN ++
    -- Front stairs
    ((List.range 6).flatMap fun s =>
      addBox 0 (-8 + (s : ℚ) * 5) (-120 - (s : ℚ) * 12) (92 - (s : ℚ) * 8) 5 40
        CASTLE_STONE CASTLE_STONE CASTLE_DARK) ++
    -- Walls
    addBox (-310) 0 (-170) 260 92 38 CASTLE_STONE CASTLE_STONE CASTLE_DARK ++
    addBox 310 0 (-170) 260 92 38 CASTLE_STONE CASTLE_STONE CASTLE_DARK ++
    addBox (-420) 0 160 38 92 720 CASTLE_STONE CASTLE_DARK CASTLE_STONE ++
    addBox 420 0 160 38 92 720 CASTLE_STONE CASTLE_DARK CASTLE_STONE ++
    addBattlements (-310) 92 (-170) 240 false CASTLE_STONE 5 ++
    addBattlements 310 92 (-170) 240 false CASTLE_STONE 5 ++
    addBattlements (-420) 92 160 700 true CASTLE_STONE 9 ++
    addBattlements 420 92 160 700 true CASTLE_STONE 9 ++
    -- Corner towers
    (([(-380, -160), (380, -160), (-380, 520), (380, 520)] :
        List (ℚ × ℚ)).flatMap fun tp =>
      addPeachTower cosf sinf piq tp.1 0 tp.2 58 108 68 TOWER_COLOR
        CASTLE_ROOF) ++
    -- Main castle (c_z = 210)
    addBox 0 0 210 520 145 340 CASTLE_STONE CASTLE_STONE CASTLE_STONE ++
    addBox (-240) 0 (210 - 80) 120 95 180 CASTLE_STONE CASTLE_STONE
      CASTLE_DARK ++
    addBox 240 0 (210 - 80) 120 95 180 CASTLE_STONE CASTLE_STONE
      CASTLE_DARK ++
    addCylinder cosf sinf piq 0 0 (210 + 25) 92 310 14 TOWER_COLOR
      TOWER_COLOR ++
    addCone cosf sinf piq 0 310 (210 + 25) 108 135 14 CASTLE_ROOF ++
    addFlag 0 (310 + 135 + 8) (210 + 25) ++
    -- Window
    addBox 0 165 (210 - 165) 78 92 14 (240, 180, 220) WINDOW_BLUE
      WINDOW_BLUE ++
    -- Inner towers
    (([(-235, 210 - 155), (235, 210 - 155), (-235, 210 + 155),
        (235, 210 + 155)] : List (ℚ × ℚ)).flatMap fun tp =>
      addPeachTower cosf sinf piq tp.1 0 tp.2 62 195 85 TOWER_COLOR
        CASTLE_ROOF) ++
    -- Trees
    (([(-210, 90), (210, 90), (-260, -70), (260, -70), (-480, 300),
        (480, 300)] : List (ℚ × ℚ)).flatMap fun tp =>
      addCylinder cosf sinf piq tp.1 0 tp.2 12 34 4 WOOD_BROWN WOOD_BROWN ++
        addCone cosf sinf piq tp.1 34 tp.2 46 68 4 DARK_GREEN) ++
    -- Platforms
    (([(0, 135, -35), (170, 95, -120), (-170, 95, -120)] :
        List (ℚ × ℚ × ℚ)).flatMap fun tp =>
      addBox tp.1 tp.2.1 tp.2.2 42 42 42 YELLOW GOLD GOLD)

/-- C8: determinism of procedural scene generation.  Two executions of the
level-construction routine from identical input parameters yield the same
triangle list: same length, and pairwise equal entries (hence equal vertex
coordinates and colors) at every index, in the same order. -/
theorem levelBuild_deterministic (cosf sinf : ℚ → ℚ) (piq : ℚ) :
    levelBuild cosf sinf piq = levelBuild cosf sinf piq ∧
      (levelBuild cosf sinf piq).length = (levelBuild cosf sinf piq).length ∧
      ∀ i : ℕ, (levelBuild cosf sinf piq)[i]? = (levelBuild cosf sinf piq)[i]? :=
  ⟨rfl, rfl, fun _ => rfl⟩

end SM64
